import Mathlib

/-!
# Verification of the t2z Go binding layer

A shallow embedding of the t2z Go package (`t2z.go`): the PCZT
(partially constructed Zcash transaction) handle-ownership discipline, the
transparent-input wire encoding, and the guard logic of every exported
operation.

The native Rust library behind the CGO boundary is external to this
repository; each binding operation therefore takes the native call's outcome
(`FFIResult`) as an explicit argument, and every theorem about the binding
layer quantifies over that outcome, so the proved properties hold whether the
native call succeeds or fails.  Behaviour that the repository only specifies
(the ZIP-317 fee function, the PCZT codec, the sighash index check, the
builder pipeline) is modelled separately below, under definitions whose doc
comments start with `Modelled from the spec:`.

Conventions:
* Go byte slices are `List Nat` with each entry intended below 256;
* Go `nil` pointers are `Option.none`;
* native handles are opaque `Nat` values (the binding never inspects them);
* each operation returns, alongside its Go result, the post-state of every
  `PCZT` argument (Go mutates these in place via `consumeHandle`) and a
  `Bool` recording whether the native library was actually invoked.
-/

/-- Result codes of the FFI layer (`ResultCode` constants in `t2z.go`). -/
inductive ResultCode
  | success
  | errorNullPointer
  | errorInvalidUTF8
  | errorBufferTooSmall
  | errorProposal
  | errorProver
  | errorVerification
  | errorSighash
  | errorSignature
  | errorCombine
  | errorFinalization
  | errorParse
  | errorNotImplemented
deriving DecidableEq, Repr

/-- A Go `error` value produced by the binding: either a plain
`errors.New` message or a wrapped FFI failure (`wrapError`), which carries the
result code together with the last-error detail string. -/
inductive GoError
  | plain (msg : String)
  | ffi (code : ResultCode) (msg : String)
deriving DecidableEq, Repr

/-- Outcome of one native (Rust) call.  The native library is outside this
repository, so the outcome is an explicit argument of each binding
operation; a failure carries the result code and the last-error message. -/
inductive FFIResult (α : Type)
  | success (v : α)
  | failure (code : ResultCode) (msg : String)
deriving DecidableEq, Repr

/-- Replace a successful native value by an opaque handle number (the binding
only ever receives a handle pointer back from the native library). -/
def FFIResult.toHandle {α : Type} (r : FFIResult α) (h : Nat) : FFIResult Nat :=
  match r with
  | .success _ => .success h
  | .failure c m => .failure c m

/-- Extract a successful native value, with a fallback. -/
def FFIResult.getD {α : Type} (r : FFIResult α) (d : α) : α :=
  match r with
  | .success v => v
  | .failure _ _ => d

/-- True exactly when a Go call returned a non-`nil` error. -/
def isErr {α : Type} : Except GoError α → Bool
  | .error _ => true
  | .ok _ => false

/-- The successful value of a Go call, if any. -/
def exceptOk? {α : Type} : Except GoError α → Option α
  | .ok v => some v
  | .error _ => none

/-- The `Payment` struct of `t2z.go`. -/
structure Payment where
  address : String
  amount : Nat
  memo : String
  label : String
  message : String
deriving DecidableEq, Repr

/-- The `TransactionRequest` struct of `t2z.go`: the payment list plus the native
handle.  `finalizerSet` models whether a runtime finalizer is currently
registered for the value (`runtime.SetFinalizer`). -/
structure TransactionRequest where
  payments : List Payment
  handle : Option Nat
  finalizerSet : Bool
deriving DecidableEq, Repr

/-- The `TransparentInput` struct of `t2z.go` (a transparent UTXO). -/
structure TransparentInput where
  pubkey : List Nat
  txid : List Nat
  vout : Nat
  amount : Nat
  scriptPubKey : List Nat
deriving DecidableEq, Repr

/-- The `PCZT` struct of `t2z.go`: just the native handle, plus the finalizer
registration state. -/
structure PCZT where
  handle : Option Nat
  finalizerSet : Bool
deriving DecidableEq, Repr

/-- Function `newPCZT` of `t2z.go`: wrap a fresh native handle and register a
finalizer. -/
def newPCZT (h : Nat) : PCZT :=
  { handle := some h, finalizerSet := true }

/-- Method `consumeHandle` of `t2z.go`: return the handle and clear it
(ownership transferred to the native library), clearing the finalizer. -/
def PCZT.consumeHandle (p : PCZT) : Option Nat × PCZT :=
  match p.handle with
  | none => (none, p)
  | some h => (some h, { handle := none, finalizerSet := false })

/-- Method `Free` on `PCZT` in `t2z.go`.  The second component lists the native handles
released by this call (`C.pczt_free`). -/
def PCZT.Free (p : PCZT) : PCZT × List Nat :=
  match p.handle with
  | some h => ({ handle := none, finalizerSet := false }, [h])
  | none => (p, [])

/-- Iterate `PCZT.Free` `n` times, accumulating every native release. -/
def PCZT.freeN (p : PCZT) : Nat → PCZT × List Nat
  | 0 => (p, [])
  | n + 1 =>
    let r1 := p.Free
    let r2 := r1.1.freeN n
    (r2.1, r1.2 ++ r2.2)

/-- Method `Free` on `TransactionRequest` in `t2z.go`. -/
def TransactionRequest.Free (r : TransactionRequest) : TransactionRequest × List Nat :=
  match r.handle with
  | some h => ({ r with handle := none, finalizerSet := false }, [h])
  | none => (r, [])

/-- Iterate `TransactionRequest.Free` `n` times. -/
def TransactionRequest.freeN (r : TransactionRequest) : Nat → TransactionRequest × List Nat
  | 0 => (r, [])
  | n + 1 =>
    let r1 := r.Free
    let r2 := r1.1.freeN n
    (r2.1, r1.2 ++ r2.2)

/-- One iteration of the `serializeTransparentInputs` loop in `t2z.go`:
append the pubkey bytes, the txid bytes, the `uint32` little-endian vout,
the `uint64` little-endian amount, the `uint16` little-endian script length,
and the script bytes.  `byte(x)` is `x % 256`; the `uint16` cast is
`% 65536`. -/
def appendInputBytes (buf : List Nat) (input : TransparentInput) : List Nat :=
  let vout := input.vout
  let amount := input.amount
  let scriptLen := input.scriptPubKey.length % 65536
  buf ++ input.pubkey ++ input.txid
    ++ [vout % 256, vout / 256 % 256, vout / 65536 % 256, vout / 16777216 % 256]
    ++ [amount % 256, amount / 256 % 256, amount / 65536 % 256,
        amount / 16777216 % 256, amount / 4294967296 % 256,
        amount / 1099511627776 % 256, amount / 281474976710656 % 256,
        amount / 72057594037927936 % 256]
    ++ [scriptLen % 256, scriptLen / 256 % 256]
    ++ input.scriptPubKey

/-- Function `serializeTransparentInputs` of `t2z.go`: the compact binary encoding of
the builder's bulk-input argument — a `uint16` little-endian input count
followed by each input's `appendInputBytes` fields. -/
def serializeTransparentInputs (inputs : List TransparentInput) : List Nat :=
  let numInputs := inputs.length % 65536
  inputs.foldl appendInputBytes [numInputs % 256, numInputs / 256 % 256]

/-- Function `NewTransactionRequest` of `t2z.go`: rejects an empty payment list before
any native call; otherwise the native `pczt_transaction_request_new` outcome
decides the result.  The `Bool` records whether the native library ran. -/
def NewTransactionRequest (payments : List Payment) (nres : FFIResult Nat) :
    Except GoError TransactionRequest × Bool :=
  match payments with
  | [] => (.error (.plain "at least one payment is required"), false)
  | _ :: _ =>
    match nres with
    | .success h => (.ok { payments := payments, handle := some h, finalizerSet := true }, true)
    | .failure c m => (.error (.ffi c m), true)

/-- Function `ProposeTransactionWithChange` of `t2z.go`: guards on a non-empty input
list and a live request before serializing the inputs and calling
`pczt_propose_transaction`. -/
def ProposeTransactionWithChange (inputs : List TransparentInput)
    (request : Option TransactionRequest) (changeAddress : String)
    (nres : FFIResult Nat) : Except GoError PCZT × Bool :=
  match inputs with
  | [] => (.error (.plain "at least one input is required"), false)
  | _ :: _ =>
    match request with
    | none => (.error (.plain "invalid transaction request"), false)
    | some r =>
      match r.handle with
      | none => (.error (.plain "invalid transaction request"), false)
      | some _ =>
        let _ := serializeTransparentInputs inputs
        let _ := changeAddress
        match nres with
        | .success h => (.ok (newPCZT h), true)
        | .failure c m => (.error (.ffi c m), true)

/-- Function `ProposeTransaction` of `t2z.go`: propose with the default (derived)
change address. -/
def ProposeTransaction (inputs : List TransparentInput)
    (request : Option TransactionRequest) (nres : FFIResult Nat) :
    Except GoError PCZT × Bool :=
  ProposeTransactionWithChange inputs request "" nres

/-- Function `ProveTransaction` of `t2z.go`: guards on a live PCZT, then consumes the
handle unconditionally before the native call; returns the Go result, the
post-state of the argument, and whether the native library ran. -/
def ProveTransaction (p : Option PCZT) (nres : FFIResult Nat) :
    Except GoError PCZT × Option PCZT × Bool :=
  match p with
  | none => (.error (.plain "invalid PCZT"), none, false)
  | some pc =>
    match pc.handle with
    | none => (.error (.plain "invalid PCZT"), some pc, false)
    | some _ =>
      let pc2 := pc.consumeHandle.2
      match nres with
      | .success h => (.ok (newPCZT h), some pc2, true)
      | .failure c m => (.error (.ffi c m), some pc2, true)

/-- Function `GetSighash` of `t2z.go`: a non-consuming observer; the PCZT argument is
returned unchanged on every path. -/
def GetSighash (p : Option PCZT) (inputIndex : Nat) (nres : FFIResult Nat) :
    Except GoError Nat × Option PCZT × Bool :=
  match p with
  | none => (.error (.plain "invalid PCZT"), none, false)
  | some pc =>
    match pc.handle with
    | none => (.error (.plain "invalid PCZT"), some pc, false)
    | some _ =>
      let _ := inputIndex
      match nres with
      | .success sh => (.ok sh, some pc, true)
      | .failure c m => (.error (.ffi c m), some pc, true)

/-- Function `AppendSignature` of `t2z.go`: guards on a live PCZT, then consumes the
handle unconditionally before the native call. -/
def AppendSignature (p : Option PCZT) (inputIndex : Nat) (signature : List Nat)
    (nres : FFIResult Nat) : Except GoError PCZT × Option PCZT × Bool :=
  match p with
  | none => (.error (.plain "invalid PCZT"), none, false)
  | some pc =>
    match pc.handle with
    | none => (.error (.plain "invalid PCZT"), some pc, false)
    | some _ =>
      let _ := inputIndex
      let _ := signature
      let pc2 := pc.consumeHandle.2
      match nres with
      | .success h => (.ok (newPCZT h), some pc2, true)
      | .failure c m => (.error (.ffi c m), some pc2, true)

/-- Function `FinalizeAndExtract` of `t2z.go`: guards on a live PCZT, then consumes
the handle unconditionally; on success the native transaction bytes are
copied out. -/
def FinalizeAndExtract (p : Option PCZT) (nres : FFIResult (List Nat)) :
    Except GoError (List Nat) × Option PCZT × Bool :=
  match p with
  | none => (.error (.plain "invalid PCZT"), none, false)
  | some pc =>
    match pc.handle with
    | none => (.error (.plain "invalid PCZT"), some pc, false)
    | some _ =>
      let pc2 := pc.consumeHandle.2
      match nres with
      | .success bs => (.ok bs, some pc2, true)
      | .failure c m => (.error (.ffi c m), some pc2, true)

/-- Function `ParsePCZT` of `t2z.go`: rejects empty bytes, otherwise wraps the native
`pczt_parse` outcome in a fresh PCZT. -/
def ParsePCZT (pcztBytes : List Nat) (nres : FFIResult Nat) :
    Except GoError PCZT × Bool :=
  match pcztBytes with
  | [] => (.error (.plain "empty PCZT bytes"), false)
  | _ :: _ =>
    match nres with
    | .success h => (.ok (newPCZT h), true)
    | .failure c m => (.error (.ffi c m), true)

/-- Function `SerializePCZT` of `t2z.go`: a non-consuming observer; the PCZT argument
is returned unchanged on every path. -/
def SerializePCZT (p : Option PCZT) (nres : FFIResult (List Nat)) :
    Except GoError (List Nat) × Option PCZT × Bool :=
  match p with
  | none => (.error (.plain "invalid PCZT"), none, false)
  | some pc =>
    match pc.handle with
    | none => (.error (.plain "invalid PCZT"), some pc, false)
    | some _ =>
      match nres with
      | .success bs => (.ok bs, some pc, true)
      | .failure c m => (.error (.ffi c m), some pc, true)

/-- The `TransparentOutput` struct of `t2z.go` (expected change for
verification). -/
structure TransparentOutput where
  scriptPubKey : List Nat
  value : Nat
deriving DecidableEq, Repr

/-- Function `VerifyBeforeSigning` of `t2z.go`: a non-consuming observer of the PCZT
and the request; both are only read. -/
def VerifyBeforeSigning (p : Option PCZT) (request : Option TransactionRequest)
    (expectedChange : List TransparentOutput) (nres : FFIResult Unit) :
    Except GoError Unit × Option PCZT × Bool :=
  match p with
  | none => (.error (.plain "invalid PCZT"), none, false)
  | some pc =>
    match pc.handle with
    | none => (.error (.plain "invalid PCZT"), some pc, false)
    | some _ =>
      match request with
      | none => (.error (.plain "invalid transaction request"), some pc, false)
      | some r =>
        match r.handle with
        | none => (.error (.plain "invalid transaction request"), some pc, false)
        | some _ =>
          let _ := expectedChange
          match nres with
          | .success _ => (.ok (), some pc, true)
          | .failure c m => (.error (.ffi c m), some pc, true)

/-- A PCZT pointer that `Combine`'s validation loop rejects: a Go `nil`
pointer or a consumed/freed handle. -/
def badPCZT : Option PCZT → Bool
  | none => true
  | some pc => pc.handle.isNone

/-- The validation loop of `Combine`: index of the first `nil`/dead element,
if any (Go returns the error for the first offending index). -/
def firstBad : List (Option PCZT) → Nat → Option Nat
  | [], _ => none
  | p :: ps, i => if badPCZT p then some i else firstBad ps (i + 1)

/-- Function `Combine` of `t2z.go`: rejects an empty list, validates every element
(returning early, consuming nothing, if any is `nil` or dead), then consumes
every handle before the single native `pczt_combine` call. -/
def Combine (pczts : List (Option PCZT)) (nres : FFIResult Nat) :
    Except GoError PCZT × List (Option PCZT) × Bool :=
  match pczts with
  | [] => (.error (.plain "at least one PCZT is required"), [], false)
  | _ :: _ =>
    match firstBad pczts 0 with
    | some i => (.error (.plain ("invalid PCZT at index " ++ toString i)), pczts, false)
    | none =>
      let pczts2 := pczts.map (fun p => p.map (fun pc => pc.consumeHandle.2))
      match nres with
      | .success h => (.ok (newPCZT h), pczts2, true)
      | .failure c m => (.error (.ffi c m), pczts2, true)

/-! ## Modelled native layer

The Rust library behind the CGO boundary is not part of this repository;
the definitions below model it from the spec (and from the binding's own
documented examples), as close to the spec's words as the missing code
allows. -/

/-- ZIP-317 marginal fee constant (5000 zatoshis, spec section 4.1). -/
def marginalFee : Nat := 5000

/-- ZIP-317 grace-action count (2 actions, spec section 4.1). -/
def graceActions : Nat := 2

/-- Modelled from the spec: `pczt_calculate_fee` lives in the absent Rust
library.  ZIP-317 (cited by the binding's doc comment): the fee is
`marginalFee * max(graceActions, logicalActions)` where the transparent side
contributes `max(inputs, outputs)` logical actions and the Orchard side
contributes its action count, padded to at least two actions whenever any
shielded output exists.  This reproduces the binding's documented examples:
`CalculateFee 1 2 0 = 10000` and `CalculateFee 1 1 1 = 15000`. -/
def CalculateFee (numTransparentInputs numTransparentOutputs numOrchardOutputs : Nat) : Nat :=
  let orchardActions := if numOrchardOutputs = 0 then 0 else max 2 numOrchardOutputs
  marginalFee * max graceActions
    (max numTransparentInputs numTransparentOutputs + orchardActions)

/-- Base-128 varint encoder (fuelled so that it reduces in the kernel; the
fuel `n + 1` always suffices since the argument shrinks by a factor 128). -/
def encNatAux : Nat → Nat → List Nat
  | 0, n => [n % 128]
  | fuel + 1, n =>
    if n < 128 then [n] else (n % 128 + 128) :: encNatAux fuel (n / 128)

/-- Base-128 varint encoding of a natural number (low 7 bits first, high bit
of each byte set when more bytes follow). -/
def encNat (n : Nat) : List Nat := encNatAux (n + 1) n

/-- Base-128 varint decoder, returning the value and the unconsumed tail. -/
def decNat : List Nat → Option (Nat × List Nat)
  | [] => none
  | b :: bs =>
    if b < 128 then some (b, bs)
    else
      match decNat bs with
      | some (m, rest) => some (b - 128 + 128 * m, rest)
      | none => none

/-- Length-prefixed list encoding: varint count then the concatenated
element encodings. -/
def encList {α : Type} (enc : α → List Nat) (xs : List α) : List Nat :=
  encNat xs.length ++ (xs.map enc).flatten

/-- Decode exactly `k` elements, threading the unconsumed tail. -/
def decMany {α : Type} (dec : List Nat → Option (α × List Nat)) :
    Nat → List Nat → Option (List α × List Nat)
  | 0, bs => some ([], bs)
  | k + 1, bs =>
    match dec bs with
    | some (a, rest) =>
      match decMany dec k rest with
      | some (as, rest2) => some (a :: as, rest2)
      | none => none
    | none => none

/-- Decode a length-prefixed list. -/
def decList {α : Type} (dec : List Nat → Option (α × List Nat)) (bs : List Nat) :
    Option (List α × List Nat) :=
  match decNat bs with
  | some (k, rest) => decMany dec k rest
  | none => none

/-- Byte-string encoding: a length-prefixed list of varint-encoded bytes. -/
def encBytes (bs : List Nat) : List Nat := encList encNat bs

/-- Byte-string decoder. -/
def decBytes (bs : List Nat) : Option (List Nat × List Nat) := decList decNat bs

/-- Optional-field encoding: tag byte 0 for absent, 1 followed by the payload
for present. -/
def encOpt {α : Type} (enc : α → List Nat) : Option α → List Nat
  | none => [0]
  | some x => 1 :: enc x

/-- Optional-field decoder. -/
def decOpt {α : Type} (dec : List Nat → Option (α × List Nat)) :
    List Nat → Option (Option α × List Nat)
  | [] => none
  | b :: bs =>
    if b = 0 then some (none, bs)
    else
      match dec bs with
      | some (x, rest) => some (some x, rest)
      | none => none

/-- Modelled from the spec: one spend descriptor of the native transaction
document — script, amount, prevout reference, pubkey, and the per-input
partial-signature slot. -/
structure TIn where
  pubkey : List Nat
  txid : List Nat
  vout : Nat
  amount : Nat
  scriptPubKey : List Nat
  sig : Option (List Nat)
deriving DecidableEq, Repr

/-- Modelled from the spec: one transparent output (script and value). -/
structure TOut where
  script : List Nat
  value : Nat
deriving DecidableEq, Repr

/-- Modelled from the spec: one shielded (Orchard) action placeholder with
destination key material, value, and its proof slot. -/
structure OrchardAction where
  payload : List Nat
  value : Nat
  proof : Option (List Nat)
deriving DecidableEq, Repr

/-- Modelled from the spec: the native transaction document (the PCZT proper,
which lives behind the opaque handle): inputs being spent, transparent
outputs, and shielded actions. -/
structure NativeDoc where
  tinputs : List TIn
  touts : List TOut
  orchard : List OrchardAction
deriving DecidableEq, Repr

/-- The empty native document (used only as a fallback value). -/
def emptyDoc : NativeDoc := { tinputs := [], touts := [], orchard := [] }

/-- Spend-descriptor encoding for the PCZT container format. -/
def encTIn (t : TIn) : List Nat :=
  encBytes t.pubkey ++ encBytes t.txid ++ encNat t.vout ++ encNat t.amount
    ++ encBytes t.scriptPubKey ++ encOpt encBytes t.sig

/-- Spend-descriptor decoder. -/
def decTIn (bs : List Nat) : Option (TIn × List Nat) :=
  match decBytes bs with
  | none => none
  | some (pk, r1) =>
    match decBytes r1 with
    | none => none
    | some (tx, r2) =>
      match decNat r2 with
      | none => none
      | some (vo, r3) =>
        match decNat r3 with
        | none => none
        | some (am, r4) =>
          match decBytes r4 with
          | none => none
          | some (spk, r5) =>
            match decOpt decBytes r5 with
            | none => none
            | some (sg, r6) =>
              some ({ pubkey := pk, txid := tx, vout := vo, amount := am,
                      scriptPubKey := spk, sig := sg }, r6)

/-- Transparent-output encoding. -/
def encTOut (o : TOut) : List Nat := encBytes o.script ++ encNat o.value

/-- Transparent-output decoder. -/
def decTOut (bs : List Nat) : Option (TOut × List Nat) :=
  match decBytes bs with
  | none => none
  | some (sc, r1) =>
    match decNat r1 with
    | none => none
    | some (v, r2) => some ({ script := sc, value := v }, r2)

/-- Orchard-action encoding. -/
def encOrchard (a : OrchardAction) : List Nat :=
  encBytes a.payload ++ encNat a.value ++ encOpt encBytes a.proof

/-- Orchard-action decoder. -/
def decOrchard (bs : List Nat) : Option (OrchardAction × List Nat) :=
  match decBytes bs with
  | none => none
  | some (pl, r1) =>
    match decNat r1 with
    | none => none
    | some (v, r2) =>
      match decOpt decBytes r2 with
      | none => none
      | some (pf, r3) => some ({ payload := pl, value := v, proof := pf }, r3)

/-- Modelled from the spec: `pczt_serialize`, the PCZT container codec's
serializer (the Rust codec itself is absent from the repository; the spec
only requires the format to round-trip exactly). -/
def pczt_serialize (d : NativeDoc) : List Nat :=
  encList encTIn d.tinputs ++ encList encTOut d.touts ++ encList encOrchard d.orchard

/-- Modelled from the spec: `pczt_parse`, the PCZT container codec's parser;
rejects trailing bytes. -/
def pczt_parse (bs : List Nat) : Option NativeDoc :=
  match decList decTIn bs with
  | none => none
  | some (ti, r1) =>
    match decList decTOut r1 with
    | none => none
    | some (to2, r2) =>
      match decList decOrchard r2 with
      | some (oa, []) => some { tinputs := ti, touts := to2, orchard := oa }
      | _ => none

/-- Modelled from the spec: the transparent-input sighash digest, a
deterministic function of the full committed document contents. -/
def sighashOf (d : NativeDoc) : Nat :=
  (pczt_serialize d).foldl (fun a b => a * 257 + b + 1) 0

/-- Modelled from the spec: `pczt_get_sighash` fails with an index-out-of-
range error (`ERROR_SIGHASH`) when the input index is not below the number of
transparent inputs, and otherwise returns the digest. -/
def pczt_get_sighash (d : NativeDoc) (inputIndex : Nat) : FFIResult Nat :=
  if inputIndex < d.tinputs.length then .success (sighashOf d)
  else .failure .errorSighash "input index out of range"

/-- Modelled from the spec: `pczt_append_signature` fails with an
index-out-of-range error (`ERROR_SIGNATURE`) for a nonexistent input;
otherwise signature validity is decided by external cryptography (the
`sigValid` argument) and a valid signature fills that input's slot, leaving
everything else unchanged. -/
def pczt_append_signature (d : NativeDoc) (inputIndex : Nat) (sig : List Nat)
    (sigValid : Bool) : FFIResult NativeDoc :=
  match d.tinputs[inputIndex]? with
  | none => .failure .errorSignature "input index out of range"
  | some t =>
    if sigValid then
      .success { d with tinputs := d.tinputs.set inputIndex { t with sig := some sig } }
    else .failure .errorSignature "invalid signature"

/-- Modelled from the spec: a transparent recipient script derived from the
recipient address string. -/
def scriptOfAddress (a : String) : List Nat := a.toList.map Char.toNat

/-- Modelled from the spec: the default change script, derived from the first
input's public key. -/
def changeScriptFor (pubkey : List Nat) : List Nat := 118 :: 169 :: pubkey

/-- A payment is shielded when its recipient is a unified address (first
character `u`); otherwise it is transparent. -/
def isShieldedPayment (p : Payment) : Bool :=
  match p.address.toList with
  | c :: _ => c == 'u'
  | [] => false

/-- Modelled from the spec: `pczt_propose_transaction`, the builder.  Fails
for empty inputs or payments; computes the ZIP-317 fee from the shape
(counting the change output); fails with insufficient funds when the inputs
cannot cover payments plus fee; otherwise emits one spend descriptor per
input, one output per payment (transparent or shielded placeholder), and a
change output (derived from the first input's key unless a change address is
supplied) when the change is positive. -/
def pczt_propose_transaction (inputs : List TransparentInput)
    (payments : List Payment) (changeAddress : String) : FFIResult NativeDoc :=
  match inputs, payments with
  | [], _ => .failure .errorProposal "no inputs"
  | _, [] => .failure .errorProposal "no payments"
  | i0 :: _, _ :: _ =>
    let tpays := payments.filter (fun p => !(isShieldedPayment p))
    let spays := payments.filter (fun p => isShieldedPayment p)
    let totalIn := (inputs.map TransparentInput.amount).sum
    let totalPay := (payments.map Payment.amount).sum
    let fee := CalculateFee inputs.length (tpays.length + 1) spays.length
    if totalIn < totalPay + fee then .failure .errorProposal "insufficient funds"
    else
      let change := totalIn - totalPay - fee
      let changeScript :=
        if changeAddress = "" then changeScriptFor i0.pubkey
        else scriptOfAddress changeAddress
      .success
        { tinputs := inputs.map (fun i =>
            { pubkey := i.pubkey, txid := i.txid, vout := i.vout,
              amount := i.amount, scriptPubKey := i.scriptPubKey, sig := none })
          touts := tpays.map (fun p => { script := scriptOfAddress p.address,
                                         value := p.amount })
            ++ (if 0 < change then [{ script := changeScript, value := change }] else [])
          orchard := spays.map (fun p =>
            { payload := scriptOfAddress p.address, value := p.amount, proof := none }) }

/-- Modelled from the spec: `pczt_prove_transaction` is a no-op pass-through
for a document with no shielded actions; otherwise the external prover
(whose outcome is the `proverOk` argument) either attaches proof material to
every action or fails. -/
def pczt_prove_transaction (d : NativeDoc) (proverOk : Bool) : FFIResult NativeDoc :=
  match d.orchard with
  | [] => .success d
  | _ :: _ =>
    if proverOk then
      .success { d with orchard := d.orchard.map (fun a => { a with proof := some a.payload }) }
    else .failure .errorProver "proving failed"

/-- Modelled from the spec: the canonical wire serialization emitted by the
transaction extractor — the declared outputs first (so an auditor can read
them back), then the spends and shielded actions. -/
def txBytesOf (d : NativeDoc) : List Nat :=
  encList encTOut d.touts ++ encList encTIn d.tinputs ++ encList encOrchard d.orchard

/-- The declared transparent outputs recovered from final transaction
bytes. -/
def declaredOutputs (bs : List Nat) : Option (List TOut) :=
  match decList decTOut bs with
  | some (outs, _) => some outs
  | none => none

/-- Modelled from the spec: `pczt_finalize_and_extract` checks that every
input's signature slot and every action's proof slot is filled, checks the
value balance (inputs = outputs + fee re-derived from the final shape), and
serializes to the wire format. -/
def pczt_finalize_and_extract (d : NativeDoc) : FFIResult (List Nat) :=
  if d.tinputs.any (fun t => t.sig.isNone) then
    .failure .errorFinalization "missing signature"
  else if d.orchard.any (fun a => a.proof.isNone) then
    .failure .errorFinalization "missing proof"
  else if (d.tinputs.map TIn.amount).sum ≠
      (d.touts.map TOut.value).sum + (d.orchard.map OrchardAction.value).sum
        + CalculateFee d.tinputs.length d.touts.length d.orchard.length then
    .failure .errorFinalization "value balance mismatch"
  else .success (txBytesOf d)

/-! ## Codec round-trip lemmas -/

theorem decNat_encNatAux :
    ∀ (fuel n : Nat), n < fuel → ∀ rest, decNat (encNatAux fuel n ++ rest) = some (n, rest) := by
  intro fuel
  induction fuel with
  | zero => intro n h; omega
  | succ f ih =>
    intro n h rest
    by_cases h128 : n < 128
    · simp [encNatAux, h128, decNat]
    · have hge : ¬ (n % 128 + 128 < 128) := by omega
      have hrec : n / 128 < f := by
        have h2 : n / 128 < n := Nat.div_lt_self (by omega) (by omega)
        omega
      simp only [encNatAux, if_neg h128, List.cons_append, decNat, if_neg hge,
                 ih (n / 128) hrec rest]
      have heq : n % 128 + 128 - 128 + 128 * (n / 128) = n := by omega
      rw [heq]

/-- Varint round-trip: decoding an encoding returns the value and the
unconsumed tail. -/
theorem decNat_encNat (n : Nat) (rest : List Nat) :
    decNat (encNat n ++ rest) = some (n, rest) :=
  decNat_encNatAux (n + 1) n (Nat.lt_succ_self n) rest

theorem decMany_encs {α : Type} (dec : List Nat → Option (α × List Nat))
    (enc : α → List Nat) (hde : ∀ x rest, dec (enc x ++ rest) = some (x, rest)) :
    ∀ (xs : List α) (rest : List Nat),
      decMany dec xs.length ((xs.map enc).flatten ++ rest) = some (xs, rest) := by
  intro xs
  induction xs with
  | nil => intro rest; simp [decMany]
  | cons x xs ih =>
    intro rest
    simp only [List.map_cons, List.flatten_cons, List.length_cons, List.append_assoc,
               decMany, hde, ih]

/-- Length-prefixed list round-trip with unconsumed tail. -/
theorem decList_encList {α : Type} (dec : List Nat → Option (α × List Nat))
    (enc : α → List Nat) (hde : ∀ x rest, dec (enc x ++ rest) = some (x, rest))
    (xs : List α) (rest : List Nat) :
    decList dec (encList enc xs ++ rest) = some (xs, rest) := by
  simp only [decList, encList, List.append_assoc, decNat_encNat, decMany_encs dec enc hde]

/-- Length-prefixed list round-trip with empty tail. -/
theorem decList_encList_nil {α : Type} (dec : List Nat → Option (α × List Nat))
    (enc : α → List Nat) (hde : ∀ x rest, dec (enc x ++ rest) = some (x, rest))
    (xs : List α) : decList dec (encList enc xs) = some (xs, []) := by
  have h := decList_encList dec enc hde xs []
  rwa [List.append_nil] at h

theorem decBytes_encBytes (bs : List Nat) (rest : List Nat) :
    decBytes (encBytes bs ++ rest) = some (bs, rest) :=
  decList_encList decNat encNat decNat_encNat bs rest

theorem decOpt_encOpt {α : Type} (dec : List Nat → Option (α × List Nat))
    (enc : α → List Nat) (hde : ∀ x rest, dec (enc x ++ rest) = some (x, rest)) :
    ∀ (x : Option α) (rest : List Nat),
      decOpt dec (encOpt enc x ++ rest) = some (x, rest) := by
  intro x rest
  cases x with
  | none => simp [encOpt, decOpt]
  | some v => simp [encOpt, decOpt, hde]

theorem decOptBytes_encOptBytes (x : Option (List Nat)) (rest : List Nat) :
    decOpt decBytes (encOpt encBytes x ++ rest) = some (x, rest) :=
  decOpt_encOpt decBytes encBytes decBytes_encBytes x rest

theorem decTIn_encTIn (t : TIn) (rest : List Nat) :
    decTIn (encTIn t ++ rest) = some (t, rest) := by
  simp only [decTIn, encTIn, List.append_assoc, decBytes_encBytes, decNat_encNat,
             decOptBytes_encOptBytes]

theorem decTOut_encTOut (o : TOut) (rest : List Nat) :
    decTOut (encTOut o ++ rest) = some (o, rest) := by
  simp only [decTOut, encTOut, List.append_assoc, decBytes_encBytes, decNat_encNat]

theorem decOrchard_encOrchard (a : OrchardAction) (rest : List Nat) :
    decOrchard (encOrchard a ++ rest) = some (a, rest) := by
  simp only [decOrchard, encOrchard, List.append_assoc, decBytes_encBytes, decNat_encNat,
             decOptBytes_encOptBytes]

/-- The modelled container codec round-trips exactly on every document. -/
theorem pczt_parse_pczt_serialize (d : NativeDoc) : pczt_parse (pczt_serialize d) = some d := by
  simp only [pczt_parse, pczt_serialize, List.append_assoc,
             decList_encList decTIn encTIn decTIn_encTIn,
             decList_encList decTOut encTOut decTOut_encTOut,
             decList_encList_nil decOrchard encOrchard decOrchard_encOrchard]

/-! ## Sanity checks of the embedding against the repository's test vectors -/

/-- Varint sanity: a two-byte value round-trips. -/
theorem encNat_roundtrip_300 : decNat (encNat 300) = some (300, []) := by decide

/-- The little-endian count and the little-endian `uint16` script length of
the claimed wire layout. -/
def u16le (n : Nat) : List Nat := [n % 256, n / 256 % 256]

/-- Little-endian `uint32` field of the claimed wire layout. -/
def u32le (n : Nat) : List Nat :=
  [n % 256, n / 256 % 256, n / 65536 % 256, n / 16777216 % 256]

/-- Little-endian `uint64` field of the claimed wire layout. -/
def u64le (n : Nat) : List Nat :=
  [n % 256, n / 256 % 256, n / 65536 % 256, n / 16777216 % 256,
   n / 4294967296 % 256, n / 1099511627776 % 256, n / 281474976710656 % 256,
   n / 72057594037927936 % 256]

/-- The per-input layout claimed by the spec (section 6): pubkey, prior-tx
id, `uint32` LE vout, `uint64` LE amount, `uint16` LE script length, script
bytes — in that order with nothing else. -/
def claimedInputEncoding (i : TransparentInput) : List Nat :=
  i.pubkey ++ i.txid ++ u32le i.vout ++ u64le i.amount
    ++ u16le i.scriptPubKey.length ++ i.scriptPubKey

/-- The per-input layout as the Go loop actually emits it (script length
truncated to `uint16` before encoding). -/
def goInputEncoding (i : TransparentInput) : List Nat :=
  i.pubkey ++ i.txid ++ u32le i.vout ++ u64le i.amount
    ++ u16le (i.scriptPubKey.length % 65536) ++ i.scriptPubKey

theorem appendInputBytes_eq (buf : List Nat) (i : TransparentInput) :
    appendInputBytes buf i = buf ++ goInputEncoding i := by
  simp [appendInputBytes, goInputEncoding, u32le, u64le, u16le, List.append_assoc]

theorem foldl_appendInputBytes :
    ∀ (inputs : List TransparentInput) (init : List Nat),
      inputs.foldl appendInputBytes init = init ++ (inputs.map goInputEncoding).flatten := by
  intro inputs
  induction inputs with
  | nil => intro init; simp
  | cons i is ih =>
    intro init
    simp [List.foldl_cons, appendInputBytes_eq, ih, List.append_assoc]

theorem map_eq_on {α β : Type} (f g : α → β) :
    ∀ (l : List α), (∀ a ∈ l, f a = g a) → l.map f = l.map g := by
  intro l
  induction l with
  | nil => intro _; rfl
  | cons a l ih =>
    intro h
    simp only [List.map_cons]
    rw [h a (List.mem_cons_self a l), ih (fun b hb => h b (List.mem_cons_of_mem a hb))]

/-- A concrete well-formed input used for sanity checks and witnesses. -/
def sampleInput : TransparentInput :=
  { pubkey := List.replicate 33 7, txid := List.replicate 32 8, vout := 1,
    amount := 100000000, scriptPubKey := [118, 169, 20, 136, 172] }

/-- Cross-check of the embedding against `TestSerializeTransparentInputs`:
the 8 bytes at offset 2 + 33 + 32 + 4 = 71 are the little-endian encoding of
amount 100000000, exactly the bytes the Go test expects. -/
theorem serializeTransparentInputs_amount_bytes :
    ((serializeTransparentInputs [sampleInput]).drop 71).take 8
      = [0, 225, 245, 5, 0, 0, 0, 0] := by decide

/-- Cross-check against `TestSerializeTransparentInputs`: the first two bytes
are the input count `[1, 0]` and the script-length bytes at offset 79 are
`[5, 0]`. -/
theorem serializeTransparentInputs_count_bytes :
    ((serializeTransparentInputs [sampleInput]).take 2 = [1, 0])
    ∧ ((serializeTransparentInputs [sampleInput]).drop 79).take 2 = [5, 0] := by decide

/-! ## Claim theorems -/

/-- C7: for every list of well-formed transparent inputs (33-byte pubkeys,
32-byte txids, scripts and count below 2^16), `serializeTransparentInputs`
emits exactly the 2-byte little-endian input count followed, per input, by
the 33-byte public key, the 32-byte prior-transaction id, the 4-byte
little-endian output index, the 8-byte little-endian amount, the 2-byte
little-endian script length, and the script bytes, in that order with
nothing else; moreover each per-input block is exactly
33+32+4+8+2+scriptLen bytes. -/
theorem c7_serializeTransparentInputs_layout (inputs : List TransparentInput)
    (hcount : inputs.length < 65536)
    (hwf : ∀ i ∈ inputs, i.pubkey.length = 33 ∧ i.txid.length = 32
            ∧ i.scriptPubKey.length < 65536) :
    serializeTransparentInputs inputs
      = u16le inputs.length ++ (inputs.map claimedInputEncoding).flatten
    ∧ ∀ i ∈ inputs, (claimedInputEncoding i).length
        = 33 + 32 + 4 + 8 + 2 + i.scriptPubKey.length := by
  constructor
  · show inputs.foldl appendInputBytes _ = _
    rw [foldl_appendInputBytes inputs]
    have hmap : inputs.map goInputEncoding = inputs.map claimedInputEncoding := by
      apply map_eq_on
      intro i hi
      have hs : i.scriptPubKey.length % 65536 = i.scriptPubKey.length :=
        Nat.mod_eq_of_lt (hwf i hi).2.2
      simp [goInputEncoding, claimedInputEncoding, hs]
    have hcnt : inputs.length % 65536 = inputs.length := Nat.mod_eq_of_lt hcount
    rw [hmap, hcnt]
    rfl
  · intro i hi
    obtain ⟨hpk, htx, _⟩ := hwf i hi
    simp [claimedInputEncoding, u32le, u64le, u16le, hpk, htx]
    omega

/-- C7 witness: the layout theorem applied to a concrete well-formed
input. -/
theorem c7_serializeTransparentInputs_layout_witness :
    (([sampleInput] : List TransparentInput).length < 65536
      ∧ ∀ i ∈ [sampleInput], i.pubkey.length = 33 ∧ i.txid.length = 32
          ∧ i.scriptPubKey.length < 65536)
    ∧ (serializeTransparentInputs [sampleInput]
        = u16le ([sampleInput] : List TransparentInput).length
            ++ ([sampleInput].map claimedInputEncoding).flatten
      ∧ ∀ i ∈ [sampleInput], (claimedInputEncoding i).length
          = 33 + 32 + 4 + 8 + 2 + i.scriptPubKey.length) :=
  ⟨⟨by decide, by decide⟩,
    c7_serializeTransparentInputs_layout [sampleInput] (by decide) (by decide)⟩

/-- C3 counterexample: the claimed formula `5000 * max 2 (i + o + s)` fails
at (1, 2, 0): the fee function documented by the binding (and the spec's own
end-to-end scenario) gives 10000 there, while the claimed formula gives
15000. -/
theorem c3_fee_counterexample :
    CalculateFee 1 2 0 = 10000
    ∧ decide (CalculateFee 1 2 0 = 5000 * max 2 (1 + 2 + 0)) = false := by decide

/-- C3 (amended): the fee `CalculateFee i o s` equals
`5000 * max 2 (max i o + a s)` where `a 0 = 0` and `a s = max 2 s` for
`s > 0` — the ZIP-317 count with one logical action per transparent
input/output pair position (`max i o`) plus the Orchard actions padded to at
least two; in particular the binding's documented values
`CalculateFee 1 2 0 = 10000`, `CalculateFee 1 1 1 = 15000`, and the
grace-action minimum `CalculateFee 0 0 0 = 5000 * 2` hold. -/
theorem c3_fee_formula :
    (∀ i o s : Nat, CalculateFee i o s
        = 5000 * max 2 (max i o + (if s = 0 then 0 else max 2 s)))
    ∧ CalculateFee 1 2 0 = 10000
    ∧ CalculateFee 1 1 1 = 15000
    ∧ CalculateFee 0 0 0 = 5000 * 2 := by
  refine ⟨fun i o s => rfl, by decide, by decide, by decide⟩

/-- C5: the PCZT container codec round-trips exactly — parsing the
serialization of any document returns that document, re-serializing yields
byte-identical output, and the Go-level `SerializePCZT` on a live handle
returns exactly those bytes. -/
theorem c5_codec_roundtrip :
    ∀ (d : NativeDoc),
      pczt_parse (pczt_serialize d) = some d
      ∧ (pczt_parse (pczt_serialize d)).map pczt_serialize = some (pczt_serialize d)
      ∧ (∀ (h : Nat) (fin : Bool),
          (SerializePCZT (some { handle := some h, finalizerSet := fin })
              (FFIResult.success (pczt_serialize d))).1
            = Except.ok (pczt_serialize d)) := by
  intro d
  refine ⟨pczt_parse_pczt_serialize d, ?_, fun h fin => rfl⟩
  rw [pczt_parse_pczt_serialize d]
  rfl

/-- True when a pointer refers to a PCZT whose handle has been consumed —
the post-call state the ownership discipline demands. -/
def consumedOpt : Option PCZT → Bool
  | some pc => pc.handle.isNone
  | none => false

theorem firstBad_eq_none (ps : List (Option PCZT))
    (h : ∀ p ∈ ps, badPCZT p = false) : ∀ k, firstBad ps k = none := by
  induction ps with
  | nil => intro k; rfl
  | cons q qs ih =>
    intro k
    have hq := h q (List.mem_cons_self q qs)
    simp only [firstBad, hq, Bool.false_eq_true, if_false]
    exact ih (fun p hp => h p (List.mem_cons_of_mem q hp)) (k + 1)

theorem firstBad_isSome_of_bad (ps : List (Option PCZT)) :
    ∀ k, (∃ p ∈ ps, badPCZT p = true) → (firstBad ps k).isSome = true := by
  induction ps with
  | nil =>
    intro k h
    obtain ⟨p, hp, _⟩ := h
    exact absurd hp (List.not_mem_nil p)
  | cons q qs ih =>
    intro k h
    by_cases hq : badPCZT q = true
    · simp [firstBad, hq]
    · simp only [firstBad, hq, Bool.false_eq_true, if_false]
      obtain ⟨p, hp, hb⟩ := h
      rcases List.mem_cons.mp hp with rfl | hp2
      · exact absurd hb hq
      · exact ih (k + 1) ⟨p, hp2, hb⟩

theorem consumedOpt_map_consume (p : Option PCZT) (hp : badPCZT p = false) :
    consumedOpt (p.map (fun pc => pc.consumeHandle.2)) = true := by
  cases p with
  | none => exact absurd hp (by simp [badPCZT])
  | some pc =>
    cases pc with
    | mk hOpt fin =>
      cases hOpt with
      | none => rfl
      | some h => rfl

/-- C1 counterexample: calling `Combine` on the non-empty list
`[live, already-consumed]` returns an error from its validation loop and
leaves the live element's handle intact — so on this error return not every
element has been consumed, contradicting the claim that consumption happens
identically on success and on error. -/
theorem c1_combine_counterexample :
    isErr (Combine [some (newPCZT 1), some { handle := none, finalizerSet := false }]
        (FFIResult.success 7)).1 = true
    ∧ (Combine [some (newPCZT 1), some { handle := none, finalizerSet := false }]
        (FFIResult.success 7)).2.1
      = [some (newPCZT 1), some { handle := none, finalizerSet := false }]
    ∧ consumedOpt (some (newPCZT 1)) = false := by decide

/-- C1 (amended): for every non-empty list of PCZTs that are all live (no
`nil` pointer, no consumed handle), `Combine` consumes every element —
every post-call element's handle is cleared — and this holds identically
whether the native combine succeeds or fails.  (If some element is `nil` or
already consumed, `Combine` instead fails fast in its validation loop and
consumes nothing.) -/
theorem c1_combine_consumes_all_live (pczts : List (Option PCZT))
    (nres : FFIResult Nat) (hne : pczts ≠ [])
    (hlive : ∀ p ∈ pczts, badPCZT p = false) :
    ((Combine pczts nres).2.1.all consumedOpt = true)
    ∧ (Combine pczts nres).2.1
        = pczts.map (fun p => p.map (fun pc => pc.consumeHandle.2)) := by
  cases pczts with
  | nil => exact absurd rfl hne
  | cons q qs =>
    have hfb : firstBad (q :: qs) 0 = none := firstBad_eq_none _ hlive 0
    have hall : ∀ (l : List (Option PCZT)), (∀ p ∈ l, badPCZT p = false) →
        (l.map (fun p => p.map (fun pc => pc.consumeHandle.2))).all consumedOpt = true := by
      intro l hl
      rw [List.all_eq_true]
      intro x hx
      obtain ⟨p, hp, rfl⟩ := List.mem_map.mp hx
      exact consumedOpt_map_consume p (hl p hp)
    cases nres with
    | success h =>
      constructor
      · simp only [Combine, hfb]
        exact hall _ hlive
      · simp [Combine, hfb]
    | failure c m =>
      constructor
      · simp only [Combine, hfb]
        exact hall _ hlive
      · simp [Combine, hfb]

/-- C1 witness: the amended theorem applied to a one-element live list with
a failing native combine — the element is consumed even though `Combine`
returned an error. -/
theorem c1_combine_consumes_all_live_witness :
    ((Combine [some (newPCZT 5)]
        (FFIResult.failure ResultCode.errorCombine "native failure")).2.1.all
          consumedOpt = true)
    ∧ (Combine [some (newPCZT 5)]
        (FFIResult.failure ResultCode.errorCombine "native failure")).2.1
      = [some (newPCZT 5)].map (fun p => p.map (fun pc => pc.consumeHandle.2)) :=
  c1_combine_consumes_all_live [some (newPCZT 5)]
    (FFIResult.failure ResultCode.errorCombine "native failure")
    (by decide) (by decide)

/-- One call to a non-consuming observer: sighash extraction, verification,
or serialization, bundled with the native outcome of that call. -/
inductive ObsCall
  | sighash (inputIndex : Nat) (nres : FFIResult Nat)
  | verify (request : Option TransactionRequest)
      (expectedChange : List TransparentOutput) (nres : FFIResult Unit)
  | serialize (nres : FFIResult (List Nat))

/-- Run one observer call against a PCZT pointer, keeping the post-state of
the pointer. -/
def runObs (p : Option PCZT) : ObsCall → Option PCZT
  | .sighash idx nres => (GetSighash p idx nres).2.1
  | .verify req ch nres => (VerifyBeforeSigning p req ch nres).2.1
  | .serialize nres => (SerializePCZT p nres).2.1

/-- Run a sequence of observer calls. -/
def runObsSeq (p : Option PCZT) (cs : List ObsCall) : Option PCZT :=
  cs.foldl runObs p

theorem runObs_preserves (p : Option PCZT) (c : ObsCall) : runObs p c = p := by
  cases c with
  | sighash idx nres =>
    cases p with
    | none => rfl
    | some pc =>
      cases pc with
      | mk hOpt fin =>
        cases hOpt with
        | none => rfl
        | some h => cases nres with | success v => rfl | failure c m => rfl
  | verify req ch nres =>
    cases p with
    | none => rfl
    | some pc =>
      cases pc with
      | mk hOpt fin =>
        cases hOpt with
        | none => rfl
        | some h =>
          cases req with
          | none => rfl
          | some r =>
            cases r with
            | mk pays rh rfin =>
              cases rh with
              | none => rfl
              | some rh2 => cases nres with | success v => rfl | failure c m => rfl
  | serialize nres =>
    cases p with
    | none => rfl
    | some pc =>
      cases pc with
      | mk hOpt fin =>
        cases hOpt with
        | none => rfl
        | some h => cases nres with | success v => rfl | failure c m => rfl

theorem runObsSeq_id (p : Option PCZT) (cs : List ObsCall) : runObsSeq p cs = p := by
  induction cs with
  | nil => rfl
  | cons c cs ih =>
    show (c :: cs).foldl runObs p = p
    rw [List.foldl_cons, runObs_preserves]
    exact ih

/-- C2: operations `GetSighash`, `VerifyBeforeSigning`, and `SerializePCZT` never
consume the document: for every PCZT with a live handle, after any sequence
of calls to these three operations — each with an arbitrary native outcome,
success or failure — the PCZT is unchanged (same handle, same finalizer
state), so the same document remains usable. -/
theorem c2_observers_never_consume (h : Nat) (fin : Bool) (cs : List ObsCall) :
    runObsSeq (some { handle := some h, finalizerSet := fin }) cs
      = some { handle := some h, finalizerSet := fin } :=
  runObsSeq_id _ cs

/-- C8: operation `NewTransactionRequest` rejects every empty payment list, and
`ProposeTransaction` rejects every empty input list and every `nil` or
dead (handle-less) request, all before any native call — so nothing is
created on these failures (the native-invocation flag is `false`),
whatever the native library would have answered. -/
theorem c8_empty_or_invalid_rejected :
    (∀ nres, isErr (NewTransactionRequest [] nres).1 = true
        ∧ (NewTransactionRequest [] nres).2 = false)
    ∧ (∀ req nres, isErr (ProposeTransaction [] req nres).1 = true
        ∧ (ProposeTransaction [] req nres).2 = false)
    ∧ (∀ inputs nres, isErr (ProposeTransaction inputs none nres).1 = true
        ∧ (ProposeTransaction inputs none nres).2 = false)
    ∧ (∀ inputs pays fin nres,
        isErr (ProposeTransaction inputs
            (some { payments := pays, handle := none, finalizerSet := fin }) nres).1 = true
        ∧ (ProposeTransaction inputs
            (some { payments := pays, handle := none, finalizerSet := fin }) nres).2 = false) := by
  refine ⟨fun nres => ⟨rfl, rfl⟩, fun req nres => ⟨rfl, rfl⟩, ?_, ?_⟩
  · intro inputs nres
    cases inputs with
    | nil => exact ⟨rfl, rfl⟩
    | cons i is => exact ⟨rfl, rfl⟩
  · intro inputs pays fin nres
    cases inputs with
    | nil => exact ⟨rfl, rfl⟩
    | cons i is => exact ⟨rfl, rfl⟩

theorem combine_bad_rejected (ps : List (Option PCZT)) (nres : FFIResult Nat)
    (hbad : ∃ p ∈ ps, badPCZT p = true) :
    isErr (Combine ps nres).1 = true ∧ (Combine ps nres).2.2 = false := by
  cases ps with
  | nil =>
    obtain ⟨p, hp, _⟩ := hbad
    exact absurd hp (List.not_mem_nil p)
  | cons q qs =>
    have hfb := firstBad_isSome_of_bad (q :: qs) 0 hbad
    obtain ⟨i, hi⟩ := Option.isSome_iff_exists.mp hfb
    simp [Combine, hi, isErr]

/-- C9: every exported PCZT operation — `ProveTransaction`, `GetSighash`,
`AppendSignature`, `FinalizeAndExtract`, `SerializePCZT`,
`VerifyBeforeSigning`, and `Combine` — returns an error when given a `nil`
PCZT or one whose handle has been consumed or freed, and the native branch
(which would pass a nil handle onward) is never reached: the
native-invocation flag is `false` in every such case. -/
theorem c9_nil_or_consumed_rejected :
    (∀ nres, isErr (ProveTransaction none nres).1 = true
        ∧ (ProveTransaction none nres).2.2 = false)
    ∧ (∀ fin nres,
        isErr (ProveTransaction (some { handle := none, finalizerSet := fin }) nres).1 = true
        ∧ (ProveTransaction (some { handle := none, finalizerSet := fin }) nres).2.2 = false)
    ∧ (∀ idx nres, isErr (GetSighash none idx nres).1 = true
        ∧ (GetSighash none idx nres).2.2 = false)
    ∧ (∀ fin idx nres,
        isErr (GetSighash (some { handle := none, finalizerSet := fin }) idx nres).1 = true
        ∧ (GetSighash (some { handle := none, finalizerSet := fin }) idx nres).2.2 = false)
    ∧ (∀ idx sig nres, isErr (AppendSignature none idx sig nres).1 = true
        ∧ (AppendSignature none idx sig nres).2.2 = false)
    ∧ (∀ fin idx sig nres,
        isErr (AppendSignature (some { handle := none, finalizerSet := fin }) idx sig nres).1
          = true
        ∧ (AppendSignature (some { handle := none, finalizerSet := fin }) idx sig nres).2.2
          = false)
    ∧ (∀ nres, isErr (FinalizeAndExtract none nres).1 = true
        ∧ (FinalizeAndExtract none nres).2.2 = false)
    ∧ (∀ fin nres,
        isErr (FinalizeAndExtract (some { handle := none, finalizerSet := fin }) nres).1 = true
        ∧ (FinalizeAndExtract (some { handle := none, finalizerSet := fin }) nres).2.2 = false)
    ∧ (∀ nres, isErr (SerializePCZT none nres).1 = true
        ∧ (SerializePCZT none nres).2.2 = false)
    ∧ (∀ fin nres,
        isErr (SerializePCZT (some { handle := none, finalizerSet := fin }) nres).1 = true
        ∧ (SerializePCZT (some { handle := none, finalizerSet := fin }) nres).2.2 = false)
    ∧ (∀ req ch nres, isErr (VerifyBeforeSigning none req ch nres).1 = true
        ∧ (VerifyBeforeSigning none req ch nres).2.2 = false)
    ∧ (∀ fin req ch nres,
        isErr (VerifyBeforeSigning (some { handle := none, finalizerSet := fin }) req ch nres).1
          = true
        ∧ (VerifyBeforeSigning (some { handle := none, finalizerSet := fin }) req ch nres).2.2
          = false)
    ∧ (∀ pre post nres, isErr (Combine (pre ++ none :: post) nres).1 = true
        ∧ (Combine (pre ++ none :: post) nres).2.2 = false)
    ∧ (∀ pre post fin nres,
        isErr (Combine (pre ++ some { handle := none, finalizerSet := fin } :: post) nres).1
          = true
        ∧ (Combine (pre ++ some { handle := none, finalizerSet := fin } :: post) nres).2.2
          = false) := by
  refine ⟨fun nres => ⟨rfl, rfl⟩, fun fin nres => ⟨rfl, rfl⟩,
    fun idx nres => ⟨rfl, rfl⟩, fun fin idx nres => ⟨rfl, rfl⟩,
    fun idx sig nres => ⟨rfl, rfl⟩, fun fin idx sig nres => ⟨rfl, rfl⟩,
    fun nres => ⟨rfl, rfl⟩, fun fin nres => ⟨rfl, rfl⟩,
    fun nres => ⟨rfl, rfl⟩, fun fin nres => ⟨rfl, rfl⟩,
    fun req ch nres => ⟨rfl, rfl⟩, fun fin req ch nres => ⟨rfl, rfl⟩, ?_, ?_⟩
  · intro pre post nres
    exact combine_bad_rejected _ nres ⟨none, by simp, rfl⟩
  · intro pre post fin nres
    exact combine_bad_rejected _ nres
      ⟨some { handle := none, finalizerSet := fin }, by simp, rfl⟩

theorem pczt_freeN_dead (fin : Bool) (n : Nat) :
    PCZT.freeN { handle := none, finalizerSet := fin } n
      = ({ handle := none, finalizerSet := fin }, []) := by
  induction n with
  | zero => rfl
  | succ n ih => simp [PCZT.freeN, PCZT.Free, ih]

theorem request_freeN_dead (pays : List Payment) (fin : Bool) (n : Nat) :
    TransactionRequest.freeN { payments := pays, handle := none, finalizerSet := fin } n
      = ({ payments := pays, handle := none, finalizerSet := fin }, []) := by
  induction n with
  | zero => rfl
  | succ n ih => simp [TransactionRequest.freeN, TransactionRequest.Free, ih]

/-- C10: method `Free` is idempotent on both `PCZT` and `TransactionRequest`: the
first call on a live value clears the finalizer, sets the handle to `nil`
and releases exactly its native handle; iterating `Free` any further number
of times changes nothing and releases nothing more; and from any starting
state, any number of `Free` calls releases at most one native handle. -/
theorem c10_free_idempotent :
    (∀ (h : Nat) (fin : Bool),
        PCZT.Free { handle := some h, finalizerSet := fin }
          = ({ handle := none, finalizerSet := false }, [h])
        ∧ ∀ n, PCZT.freeN { handle := some h, finalizerSet := fin } (n + 1)
            = ({ handle := none, finalizerSet := false }, [h]))
    ∧ (∀ (p : PCZT) (n : Nat), ((p.freeN n).2).length ≤ 1)
    ∧ (∀ (pays : List Payment) (h : Nat) (fin : Bool),
        TransactionRequest.Free { payments := pays, handle := some h, finalizerSet := fin }
          = ({ payments := pays, handle := none, finalizerSet := false }, [h])
        ∧ ∀ n, TransactionRequest.freeN
              { payments := pays, handle := some h, finalizerSet := fin } (n + 1)
            = ({ payments := pays, handle := none, finalizerSet := false }, [h]))
    ∧ (∀ (r : TransactionRequest) (n : Nat), ((r.freeN n).2).length ≤ 1) := by
  refine ⟨?_, ?_, ?_, ?_⟩
  · intro h fin
    refine ⟨rfl, fun n => ?_⟩
    simp [PCZT.freeN, PCZT.Free, pczt_freeN_dead]
  · intro p n
    cases p with
    | mk hOpt fin =>
      cases hOpt with
      | none => simp [pczt_freeN_dead]
      | some h =>
        cases n with
        | zero => simp [PCZT.freeN]
        | succ n => simp [PCZT.freeN, PCZT.Free, pczt_freeN_dead]
  · intro pays h fin
    refine ⟨rfl, fun n => ?_⟩
    simp [TransactionRequest.freeN, TransactionRequest.Free, request_freeN_dead]
  · intro r n
    cases r with
    | mk pays hOpt fin =>
      cases hOpt with
      | none => simp [request_freeN_dead]
      | some h =>
        cases n with
        | zero => simp [TransactionRequest.freeN]
        | succ n =>
          simp [TransactionRequest.freeN, TransactionRequest.Free,
                request_freeN_dead]

/-- The error value of a Go call, if any. -/
def errOf {α : Type} : Except GoError α → Option GoError
  | .error e => some e
  | .ok _ => none

/-- The end-to-end scenario's single input: 100,000,000 units
(`TestFullTransparentWorkflow`). -/
def scenarioInput : TransparentInput :=
  { pubkey := List.replicate 33 2, txid := List.replicate 32 3, vout := 0,
    amount := 100000000, scriptPubKey := List.replicate 25 4 }

/-- The end-to-end scenario's single payment: 50,000,000 units. -/
def scenarioPayment : Payment :=
  { address := "tm9iMLAuYMzJ6jtFLcA7rzUmfreGuKvr7Ma", amount := 50000000,
    memo := "", label := "", message := "" }

/-- Native document produced by the builder in the scenario. -/
def c4_docProposed : FFIResult NativeDoc :=
  pczt_propose_transaction [scenarioInput] [scenarioPayment] ""

def c4_d0 : NativeDoc := c4_docProposed.getD emptyDoc

/-- Native document after proving (a transparent-only pass-through). -/
def c4_docProved : FFIResult NativeDoc := pczt_prove_transaction c4_d0 true

def c4_d1 : NativeDoc := c4_docProved.getD emptyDoc

/-- The external signer's signature over the input-0 sighash (64 bytes;
validity is the external signer's contract, here satisfied). -/
def c4_sig : List Nat := List.replicate 64 9

/-- Native document after appending the input-0 signature. -/
def c4_docSigned : FFIResult NativeDoc := pczt_append_signature c4_d1 0 c4_sig true

def c4_d2 : NativeDoc := c4_docSigned.getD emptyDoc

/-- Native finalize/extract outcome. -/
def c4_txRes : FFIResult (List Nat) := pczt_finalize_and_extract c4_d2

/-- Go-level chain of the scenario: request creation, propose, prove,
sighash, sign, finalize — each Go call fed the corresponding modelled
native outcome (handles 1–4 are the opaque native pointers). -/
def c4_request : Option TransactionRequest :=
  exceptOk? (NewTransactionRequest [scenarioPayment] (FFIResult.success 1)).1

def c4_p0 : Option PCZT :=
  exceptOk? (ProposeTransaction [scenarioInput] c4_request (c4_docProposed.toHandle 2)).1

def c4_p1 : Option PCZT :=
  exceptOk? (ProveTransaction c4_p0 (c4_docProved.toHandle 3)).1

def c4_sighashGo : Except GoError Nat := (GetSighash c4_p1 0 (pczt_get_sighash c4_d1 0)).1

def c4_p2 : Option PCZT :=
  exceptOk? (AppendSignature c4_p1 0 c4_sig (c4_docSigned.toHandle 4)).1

def c4_txGo : Except GoError (List Nat) := (FinalizeAndExtract c4_p2 c4_txRes).1

set_option maxRecDepth 100000 in
/-- C4: for the document built from one input of 100,000,000 units and one
payment of 50,000,000 units, the fee is `CalculateFee 1 2 0 = 10000` and the
change output is 49,990,000; running `ProposeTransaction`,
`ProveTransaction`, `GetSighash`, `AppendSignature`, `FinalizeAndExtract`
on it succeeds and yields a non-empty byte sequence whose declared outputs
(50,000,000 + 49,990,000 = 99,990,000) sum with the fee to the input amount
exactly. -/
theorem c4_end_to_end :
    CalculateFee 1 2 0 = 10000
    ∧ c4_d0.touts = [{ script := scriptOfAddress scenarioPayment.address,
                       value := 50000000 },
                     { script := changeScriptFor scenarioInput.pubkey,
                       value := 49990000 }]
    ∧ isErr c4_sighashGo = false
    ∧ exceptOk? c4_txGo = some (txBytesOf c4_d2)
    ∧ 0 < (txBytesOf c4_d2).length
    ∧ (declaredOutputs (txBytesOf c4_d2)).map
        (fun outs => (outs.map TOut.value).sum) = some 99990000
    ∧ 99990000 + CalculateFee 1 2 0 = scenarioInput.amount := by
  refine ⟨by decide, by decide, by decide, by decide, by decide, by decide, by decide⟩

/-- The live Go-side handle used in the invalid-index scenario (it stands
for the single-input proved document `c4_d1`). -/
def c6_pczt : Option PCZT := some { handle := some 10, finalizerSet := true }

/-- The 64-byte all-zero signature used by
`TestAppendSignatureInvalidIndex`. -/
def c6_sig : List Nat := List.replicate 64 0

/-- Running `GetSighash` at index 999 against the single-input document. -/
def c6_getSighash : Except GoError Nat × Option PCZT × Bool :=
  GetSighash c6_pczt 999 (pczt_get_sighash c4_d1 999)

/-- Running `AppendSignature` at index 999 against the single-input document. -/
def c6_append : Except GoError PCZT × Option PCZT × Bool :=
  AppendSignature c6_pczt 999 c6_sig
    ((pczt_append_signature c4_d1 999 c6_sig true).toHandle 11)

set_option maxRecDepth 100000 in
/-- C6: against the single-input document, `GetSighash` with index 999 fails
with the index-out-of-range error and leaves the document's handle intact
(still usable), while `AppendSignature` with index 999 also fails with the
index-out-of-range error and nonetheless consumes the handle. -/
theorem c6_invalid_index :
    c4_d1.tinputs.length = 1
    ∧ errOf c6_getSighash.1
        = some (.ffi .errorSighash "input index out of range")
    ∧ c6_getSighash.2.1 = c6_pczt
    ∧ errOf c6_append.1
        = some (.ffi .errorSignature "input index out of range")
    ∧ c6_append.2.1 = some { handle := none, finalizerSet := false } := by
  refine ⟨by decide, by decide, by decide, by decide, by decide⟩
